import Mathlib

/-!
Verification of the sales-forecasting repository's core logic: the synthetic
time-series generator (`generate_time_series_data` in app.py and
`generate_sales_data` in dataset_generator.py) and the forecasting routine
(`perform_forecast` in app.py).

Numbers are modelled by ℚ (exact arithmetic standing in for IEEE doubles).
Random draws (numpy normal / choice / uniform outputs) are explicit inputs:
`np.random.normal(0, s, n)` is modelled as `s * z` over a list of raw draws z,
`np.random.uniform(lo, hi, n)` as `lo + (hi - lo) * u` over raw draws
`u ∈ [0, 1)`, matching numpy's internal computation, and
`np.random.choice(n, size=k, replace=False)` as taking `k` elements from a
duplicate-free stream of indices below `n`.
-/

/-- A proleptic-Gregorian calendar date, as carried by pandas timestamps.
The model is used for years ≥ 1 (pandas timestamps span 1677-2262). -/
structure Date where
  year : Int
  month : Nat
  day : Nat
  deriving DecidableEq, Repr

/-- Gregorian leap-year rule, as used by the pandas calendar. -/
def isLeap (y : Int) : Bool :=
  y % 4 == 0 && (y % 100 != 0 || y % 400 == 0)

/-- Number of days in a month (`dates.daysinmonth` in both source files). -/
def daysInMonth (y : Int) (m : Nat) : Nat :=
  if m = 2 then (if isLeap y then 29 else 28)
  else if m = 4 ∨ m = 6 ∨ m = 9 ∨ m = 11 then 30
  else 31

/-- Structural validity of a calendar date. -/
def Date.Valid (d : Date) : Prop :=
  1 ≤ d.month ∧ d.month ≤ 12 ∧ 1 ≤ d.day ∧ d.day ≤ daysInMonth d.year d.month

instance (d : Date) : Decidable d.Valid :=
  inferInstanceAs (Decidable (1 ≤ d.month ∧ d.month ≤ 12 ∧ 1 ≤ d.day ∧
    d.day ≤ daysInMonth d.year d.month))

/-- The next calendar day: the daily step of `pd.date_range`. -/
def nextDay (d : Date) : Date :=
  if d.day < daysInMonth d.year d.month then ⟨d.year, d.month, d.day + 1⟩
  else if d.month < 12 then ⟨d.year, d.month + 1, 1⟩
  else ⟨d.year + 1, 1, 1⟩

/-- Chronological strict order on dates (lexicographic year, month, day). -/
def Date.lt (a b : Date) : Prop :=
  a.year < b.year ∨ (a.year = b.year ∧
    (a.month < b.month ∨ (a.month = b.month ∧ a.day < b.day)))

instance : DecidableRel Date.lt := fun a b =>
  inferInstanceAs (Decidable (a.year < b.year ∨ (a.year = b.year ∧
    (a.month < b.month ∨ (a.month = b.month ∧ a.day < b.day)))))

/-- Days since 1970-01-01 (civil calendar algorithm); the shifted year is
nonnegative for every year ≥ 1, the domain used here. -/
def daysFromCivil (d : Date) : Int :=
  let y : Int := if d.month ≤ 2 then d.year - 1 else d.year
  let era : Int := y / 400
  let yoe : Int := y - era * 400
  let mp : Int := (d.month : Int) + (if 2 < d.month then -3 else 9)
  let doy : Int := (153 * mp + 2) / 5 + (d.day : Int) - 1
  let doe : Int := yoe * 365 + yoe / 4 - yoe / 100 + doy
  era * 146097 + doe - 719468

/-- pandas `dayofweek`: Monday = 0, ..., Saturday = 5, Sunday = 6. -/
def Date.dayOfWeek (d : Date) : Int := (daysFromCivil d + 3) % 7

/-- Model of `pd.date_range(start=start_date, periods=n)`: n consecutive
daily dates. -/
def dateRange (start : Date) (n : Nat) : List Date :=
  (List.range n).map (fun i => nextDay^[i] start)

/-- Model of `np.linspace(a, b, n)` over ℚ: endpoint-inclusive evenly spaced
values (`num = 1` yields just the start value, as in numpy). -/
def linspace (a b : ℚ) (n : Nat) : List ℚ :=
  if n = 1 then [a]
  else (List.range n).map (fun i : ℕ => a + (b - a) * (i : ℚ) / ((n : ℚ) - 1))

/-- One numpy boolean-mask assignment `xs[mask(date)] = v` over a date-indexed
array. -/
def assignMask (ds : List Date) (xs : List ℚ) (p : Date → Bool) (v : ℚ) :
    List ℚ :=
  List.zipWith (fun d x => if p d then v else x) ds xs

/-- Weekly seasonal array: zeros, then the three mask assignments
`seasonal[dow == 5] = 30`, `seasonal[dow == 6] = 40`, `seasonal[dow == 4] = 20`
in source order. -/
def seasonalWeekly (ds : List Date) : List ℚ :=
  let s0 := List.replicate ds.length (0 : ℚ)
  let s1 := assignMask ds s0 (fun d => d.dayOfWeek == 5) 30
  let s2 := assignMask ds s1 (fun d => d.dayOfWeek == 6) 40
  assignMask ds s2 (fun d => d.dayOfWeek == 4) 20

/-- Per-day monthly bonus `30 * (day_of_month / days_in_month)`. -/
def monthlyBonus (d : Date) : ℚ :=
  30 * ((d.day : ℚ) / (daysInMonth d.year d.month : ℚ))

/-- Monthly seasonal array `30 * (dates.day / dates.daysinmonth)`. -/
def seasonalMonthly (ds : List Date) : List ℚ :=
  ds.map monthlyBonus

/-- Yearly seasonal array: zeros, then `seasonal[6 ≤ month ≤ 8] = 30` and
`seasonal[11 ≤ month ≤ 12] = 40`. -/
def seasonalYearly (ds : List Date) : List ℚ :=
  let s0 := List.replicate ds.length (0 : ℚ)
  let s1 := assignMask ds s0 (fun d => 6 ≤ d.month && d.month ≤ 8) 30
  assignMask ds s1 (fun d => 11 ≤ d.month && d.month ≤ 12) 40

/-- The seasonality branch of both generators: `'weekly'`, `'monthly'`, and
anything else falls through to the yearly pattern. -/
def seasonalOf (seasonality : String) (ds : List Date) : List ℚ :=
  if seasonality = "weekly" then seasonalWeekly ds
  else if seasonality = "monthly" then seasonalMonthly ds
  else seasonalYearly ds

/-- The day-of-week bonus the weekly masks are claimed to compute
(Friday = 4 in pandas numbering, Saturday = 5, Sunday = 6). -/
def weeklyBonus (w : Int) : ℚ :=
  if w = 4 then 20 else if w = 5 then 30 else if w = 6 then 40 else 0

/-- Model of `int(periods * 0.05)`: the size argument of `np.random.choice`.
Python's `int()` truncates, which on nonnegative values is the floor. -/
def numEvents (periods : Nat) : Nat := periods * 5 / 100

/-- Model of `df.loc[special_events, 'sales'] *= factors`: multiply the listed
positions by their factors (sequential form; equivalent to the vectorized
assignment because `replace=False` guarantees distinct positions). -/
def applyEvents : List ℚ → List (Nat × ℚ) → List ℚ
  | s, [] => s
  | s, (i, f) :: rest => applyEvents (s.set i (s.getD i 0 * f)) rest

/-- Round half to even over ℚ (numpy's rounding mode). -/
def roundHalfEven (q : ℚ) : Int :=
  if q - ⌊q⌋ < 1 / 2 then ⌊q⌋
  else if 1 / 2 < q - ⌊q⌋ then ⌊q⌋ + 1
  else if ⌊q⌋ % 2 = 0 then ⌊q⌋ else ⌊q⌋ + 1

/-- Model of `.round(2)`: round to two decimal places. -/
def rnd2 (q : ℚ) : ℚ := (roundHalfEven (q * 100) : ℚ) / 100

/-- The pandas frame built by `generate_time_series_data` in app.py. -/
structure SalesFrame where
  dates : List Date
  sales : List ℚ

/-- Model of app.py `generate_time_series_data(start_date, periods,
seasonality, trend_strength, noise_level)`.  `noiseDraws` are the raw standard
draws behind `np.random.normal(0, noise_level*100, periods)`; `eventStream` is
the duplicate-free index stream behind `np.random.choice(periods,
size=int(periods*0.05), replace=False)`; `uniformDraws` are the raw `[0,1)`
draws behind `np.random.uniform(1.2, 1.5, ...)`. -/
def generate_time_series_data (start : Date) (periods : Nat)
    (seasonality : String) (trend_strength noise_level : ℚ)
    (noiseDraws : List ℚ) (eventStream : List Nat) (uniformDraws : List ℚ) :
    SalesFrame :=
  let dates := dateRange start periods
  let trend := linspace 100 (100 + 100 * trend_strength) periods
  let seasonal := seasonalOf seasonality dates
  let noise := noiseDraws.map (fun z => noise_level * 100 * z)
  let sales :=
    (List.zipWith (· + ·) (List.zipWith (· + ·) trend seasonal) noise).map
      (fun x => max x 0)
  let special_events := eventStream.take (numEvents periods)
  let factors := (uniformDraws.take (numEvents periods)).map
    (fun u => 12 / 10 + (15 / 10 - 12 / 10) * u)
  ⟨dates, applyEvents sales (special_events.zip factors)⟩

/-- The primary series of the pipeline up to (and including) the floor-at-zero
step, before event injection — `np.maximum(trend + seasonal + noise, 0)`. -/
def preEventSales (start : Date) (periods : Nat) (seasonality : String)
    (trend_strength noise_level : ℚ) (noiseDraws : List ℚ) : List ℚ :=
  (List.zipWith (· + ·)
    (List.zipWith (· + ·) (linspace 100 (100 + 100 * trend_strength) periods)
      (seasonalOf seasonality (dateRange start periods)))
    (noiseDraws.map (fun z => noise_level * 100 * z))).map (fun x => max x 0)

/-- The random draws consumed by one category in dataset_generator.py:
`np.random.uniform(0.6, 1.4)`, `np.random.uniform(0.8, 1.2)` (raw `[0,1)`
draws) and the raw draws behind `np.random.normal(0, noise_level*80, periods)`. -/
structure CatDraw where
  uTrend : ℚ
  uSeas : ℚ
  noiseDraws : List ℚ

/-- The fixed category list of dataset_generator.py. -/
def categories : List String := ["Electronics", "Clothing", "Food", "Home Goods"]

/-- One category column: `cat_trend + cat_seasonal + cat_noise`, floored at 0
and rounded to two decimals. -/
def catSeries (trend seasonal : List ℚ) (noise_level : ℚ) (cd : CatDraw) :
    List ℚ :=
  let cat_trend := trend.map (fun t => t * (6 / 10 + (14 / 10 - 6 / 10) * cd.uTrend))
  let cat_seasonal := seasonal.map (fun s => s * (8 / 10 + (12 / 10 - 8 / 10) * cd.uSeas))
  let cat_noise := cd.noiseDraws.map (fun z => noise_level * 80 * z)
  ((List.zipWith (· + ·) (List.zipWith (· + ·) cat_trend cat_seasonal)
      cat_noise).map (fun x => max x 0)).map rnd2

/-- The frame built by `generate_sales_data` in dataset_generator.py: primary
sales (rounded to 2 decimals) plus one column per category. -/
structure SalesData where
  dates : List Date
  sales : List ℚ
  catSales : List (List ℚ)

/-- Model of dataset_generator.py `generate_sales_data(start_date, periods,
seasonality, trend_strength, noise_level)`.  The primary pipeline is the same
as in app.py; afterwards the four category columns are derived from the
(unscaled) trend and seasonal arrays and the main sales column is rounded to
two decimals. -/
def generate_sales_data (start : Date) (periods : Nat)
    (seasonality : String) (trend_strength noise_level : ℚ)
    (noiseDraws : List ℚ) (eventStream : List Nat) (uniformDraws : List ℚ)
    (catDraws : List CatDraw) : SalesData :=
  let dates := dateRange start periods
  let trend := linspace 100 (100 + 100 * trend_strength) periods
  let seasonal := seasonalOf seasonality dates
  let noise := noiseDraws.map (fun z => noise_level * 100 * z)
  let sales :=
    (List.zipWith (· + ·) (List.zipWith (· + ·) trend seasonal) noise).map
      (fun x => max x 0)
  let special_events := eventStream.take (numEvents periods)
  let factors := (uniformDraws.take (numEvents periods)).map
    (fun u => 12 / 10 + (15 / 10 - 12 / 10) * u)
  let sales1 := applyEvents sales (special_events.zip factors)
  let catCols := (categories.zip catDraws).map
    (fun p => catSeries trend seasonal noise_level p.2)
  ⟨dates, sales1.map rnd2, catCols⟩

/-- The forecast produced by `perform_forecast` in app.py (chart omitted:
rendering is out of scope). -/
structure ForecastResult where
  forecast_dates : List Date
  forecast_values : List ℚ
  mse : ℚ
  mae : ℚ

/-- A failure surfaced to the caller (the route wraps any raised exception
into an error response distinguishable from a success). -/
inductive ForecastError where
  | invalidConfiguration (msg : String)
  | numericMismatch (msg : String)
  deriving DecidableEq, Repr

/-- Modelled from the spec: the fitted ARIMA(5,1,0) model of statsmodels is
not part of this repository; per spec §4.3/§9 it is an abstract fit-and-forecast
capability whose point-forecast procedure returns exactly `steps` values. -/
structure FitModel where
  predict : List ℚ → Nat → List ℚ
  predict_length : ∀ h k, (predict h k).length = k

/-- Model of app.py `perform_forecast(df, forecast_periods)`.  Modelled from
the spec for the parts outside src/: statsmodels' `forecast(steps)` raises for
a non-positive number of steps ("Prediction must have end after start"), pandas
`df.index[-1]` raises on an empty frame, and numpy raises a broadcast error
when the historical tail and the forecast differ in length.  Every raised
exception surfaces as an error result. -/
def perform_forecast (df : SalesFrame) (m : FitModel) (steps : Int) :
    Except ForecastError ForecastResult :=
  if steps ≤ 0 then
    .error (.invalidConfiguration "Prediction must have end after start.")
  else
    match df.dates.getLast? with
    | none => .error (.invalidConfiguration "index -1 is out of bounds")
    | some last =>
      let k := steps.toNat
      let fvals := m.predict df.sales k
      let forecast_dates := dateRange (nextDay last) k
      if df.sales.length < k then
        .error (.numericMismatch "operands could not be broadcast together")
      else
        let tail := df.sales.drop (df.sales.length - k)
        let mse := ((tail.zip fvals).map (fun p => (p.1 - p.2) ^ 2)).sum / (k : ℚ)
        let mae := ((tail.zip fvals).map (fun p => |p.1 - p.2|)).sum / (k : ℚ)
        .ok ⟨forecast_dates, fvals, mse, mae⟩

/-- A trivial fit-and-forecast capability (used to instantiate witnesses). -/
def constModel : FitModel :=
  ⟨fun _ k => List.replicate k 0, fun _ k => List.length_replicate k 0⟩

/-! ## Calendar lemmas -/

lemma daysInMonth_ge (y : Int) (m : Nat) : 28 ≤ daysInMonth y m := by
  unfold daysInMonth
  split_ifs <;> omega

lemma nextDay_valid {d : Date} (h : d.Valid) : (nextDay d).Valid := by
  obtain ⟨h1, h2, h3, h4⟩ := h
  unfold nextDay Date.Valid
  split_ifs with hd hm <;> dsimp only
  · exact ⟨h1, h2, by omega, by omega⟩
  · have := daysInMonth_ge d.year (d.month + 1)
    exact ⟨by omega, by omega, le_refl 1, by omega⟩
  · have := daysInMonth_ge (d.year + 1) 1
    exact ⟨by omega, by omega, le_refl 1, by omega⟩

lemma Date.lt_trans {a b c : Date} (h1 : Date.lt a b) (h2 : Date.lt b c) :
    Date.lt a c := by
  unfold Date.lt at *
  omega

lemma lt_nextDay (d : Date) : Date.lt d (nextDay d) := by
  unfold Date.lt nextDay
  split_ifs <;> dsimp only <;> omega

lemma dateRange_length (start : Date) (n : Nat) :
    (dateRange start n).length = n := by
  simp [dateRange]

lemma dateRange_getD (start : Date) {n i : Nat} (h : i < n) (dflt : Date) :
    (dateRange start n).getD i dflt = nextDay^[i] start := by
  unfold dateRange
  rw [List.getD_eq_getElem?_getD, List.getElem?_map, List.getElem?_range h]
  rfl

lemma dateRange_chain (start : Date) {n i : Nat} (h : i + 1 < n) (dflt : Date) :
    (dateRange start n).getD (i + 1) dflt =
      nextDay ((dateRange start n).getD i dflt) := by
  rw [dateRange_getD start h dflt, dateRange_getD start (by omega) dflt]
  exact Function.iterate_succ_apply' nextDay i start

lemma iterate_nextDay_lt (s : Date) {i j : Nat} (hij : i < j) :
    Date.lt (nextDay^[i] s) (nextDay^[j] s) := by
  induction j with
  | zero => omega
  | succ k ih =>
    rcases Nat.lt_succ_iff_lt_or_eq.mp hij with h | h
    · exact Date.lt_trans (ih h)
        (by rw [Function.iterate_succ_apply']; exact lt_nextDay _)
    · subst h
      rw [Function.iterate_succ_apply']
      exact lt_nextDay _

lemma iterate_nextDay_valid {s : Date} (h : s.Valid) (i : Nat) :
    (nextDay^[i] s).Valid := by
  induction i with
  | zero => simpa using h
  | succ k ih =>
    rw [Function.iterate_succ_apply']
    exact nextDay_valid ih

lemma dateRange_pairwise (start : Date) (n : Nat) :
    (dateRange start n).Pairwise Date.lt := by
  unfold dateRange
  exact List.Pairwise.map _ (fun a b hab => iterate_nextDay_lt start hab)
    (List.pairwise_lt_range n)

/-! ## List and pipeline lemmas -/

lemma linspace_length (a b : ℚ) (n : Nat) : (linspace a b n).length = n := by
  unfold linspace
  split_ifs with h
  · simp [h]
  · rw [List.length_map, List.length_range]

lemma getD_set_ne (s : List ℚ) {i j : Nat} (x : ℚ) (h : i ≠ j) :
    (s.set j x).getD i 0 = s.getD i 0 := by
  induction s generalizing i j with
  | nil => simp
  | cons a as ih =>
    cases j with
    | zero =>
      cases i with
      | zero => omega
      | succ i' => simp [List.set]
    | succ j' =>
      cases i with
      | zero => simp [List.set]
      | succ i' =>
        simp only [List.set, List.getD_cons_succ]
        exact ih (by omega)

lemma getD_set_self (s : List ℚ) {j : Nat} (x : ℚ) (h : j < s.length) :
    (s.set j x).getD j 0 = x := by
  induction s generalizing j with
  | nil => simp at h
  | cons a as ih =>
    cases j with
    | zero => simp [List.set]
    | succ j' =>
      simp only [List.set, List.getD_cons_succ]
      exact ih (by simpa using h)

lemma getD_nonneg {s : List ℚ} (h : ∀ v ∈ s, 0 ≤ v) (i : Nat) :
    0 ≤ s.getD i 0 := by
  by_cases hi : i < s.length
  · rw [List.getD_eq_getElem s 0 hi]
    exact h _ (List.getElem_mem hi)
  · rw [List.getD_eq_default s 0 (by omega)]

lemma applyEvents_length (eps : List (Nat × ℚ)) (s : List ℚ) :
    (applyEvents s eps).length = s.length := by
  induction eps generalizing s with
  | nil => rfl
  | cons p rest ih =>
    obtain ⟨i, f⟩ := p
    rw [applyEvents, ih, List.length_set]

lemma applyEvents_getD_not_mem (eps : List (Nat × ℚ)) (s : List ℚ) {i : Nat}
    (hi : i ∉ eps.map Prod.fst) :
    (applyEvents s eps).getD i 0 = s.getD i 0 := by
  induction eps generalizing s with
  | nil => rfl
  | cons p rest ih =>
    obtain ⟨j, f⟩ := p
    simp only [List.map_cons, List.mem_cons] at hi
    push_neg at hi
    rw [applyEvents, ih _ hi.2, getD_set_ne _ _ hi.1]

lemma applyEvents_getD_mem (eps : List (Nat × ℚ)) (s : List ℚ)
    (hnd : (eps.map Prod.fst).Nodup) {p : Nat × ℚ} (hp : p ∈ eps)
    (hlt : p.1 < s.length) :
    (applyEvents s eps).getD p.1 0 = s.getD p.1 0 * p.2 := by
  induction eps generalizing s with
  | nil => simp at hp
  | cons q rest ih =>
    obtain ⟨j, f⟩ := q
    simp only [List.map_cons, List.nodup_cons] at hnd
    rcases List.mem_cons.mp hp with h | h
    · subst h
      rw [applyEvents, applyEvents_getD_not_mem rest _ hnd.1,
        getD_set_self _ _ hlt]
    · have hne : p.1 ≠ j := by
        intro he
        exact hnd.1 (he ▸ List.mem_map_of_mem Prod.fst h)
      rw [applyEvents, ih _ hnd.2 h (by rwa [List.length_set]),
        getD_set_ne _ _ hne]

lemma applyEvents_nonneg (eps : List (Nat × ℚ)) (s : List ℚ)
    (hs : ∀ v ∈ s, 0 ≤ v) (hf : ∀ p ∈ eps, 0 ≤ p.2) :
    ∀ v ∈ applyEvents s eps, 0 ≤ v := by
  induction eps generalizing s with
  | nil => exact hs
  | cons q rest ih =>
    obtain ⟨j, f⟩ := q
    rw [applyEvents]
    refine ih _ (fun v hv => ?_) (fun p hp => hf p (List.mem_cons_of_mem _ hp))
    rcases List.mem_or_eq_of_mem_set hv with h | h
    · exact hs v h
    · rw [h]
      exact mul_nonneg (getD_nonneg hs j) (hf (j, f) (List.mem_cons_self _ _))

lemma clamp_nonneg (l : List ℚ) : ∀ v ∈ l.map (fun x => max x 0), 0 ≤ v := by
  intro v hv
  obtain ⟨x, _, hx⟩ := List.mem_map.mp hv
  rw [← hx]
  exact le_max_right x 0

lemma roundHalfEven_nonneg {q : ℚ} (h : 0 ≤ q) : 0 ≤ roundHalfEven q := by
  have hf : (0 : ℤ) ≤ ⌊q⌋ := Int.floor_nonneg.mpr h
  unfold roundHalfEven
  split_ifs <;> omega

lemma rnd2_nonneg {q : ℚ} (h : 0 ≤ q) : 0 ≤ rnd2 q := by
  unfold rnd2
  have hr : (0 : ℤ) ≤ roundHalfEven (q * 100) :=
    roundHalfEven_nonneg (by positivity)
  refine div_nonneg ?_ (by norm_num)
  exact_mod_cast hr

lemma assignMask_length (ds : List Date) (xs : List ℚ) (p : Date → Bool)
    (v : ℚ) : (assignMask ds xs p v).length = min ds.length xs.length := by
  simp [assignMask]

lemma assignMask_getD (ds : List Date) (xs : List ℚ) (p : Date → Bool) (v : ℚ)
    {i : Nat} (dd : Date) (h1 : i < ds.length) (h2 : i < xs.length) :
    (assignMask ds xs p v).getD i 0 =
      if p (ds.getD i dd) then v else xs.getD i 0 := by
  induction ds generalizing xs i with
  | nil => simp at h1
  | cons a as ih =>
    cases xs with
    | nil => simp at h2
    | cons b bs =>
      cases i with
      | zero => simp [assignMask]
      | succ i' =>
        simp only [assignMask, List.zipWith_cons_cons, List.getD_cons_succ]
        exact ih bs (by simpa using h1) (by simpa using h2)

lemma seasonalWeekly_length (ds : List Date) :
    (seasonalWeekly ds).length = ds.length := by
  unfold seasonalWeekly
  simp [assignMask_length]

lemma seasonalYearly_length (ds : List Date) :
    (seasonalYearly ds).length = ds.length := by
  unfold seasonalYearly
  simp [assignMask_length]

lemma seasonalOf_length (seasonality : String) (ds : List Date) :
    (seasonalOf seasonality ds).length = ds.length := by
  unfold seasonalOf seasonalMonthly
  split_ifs <;> simp [seasonalWeekly_length, seasonalYearly_length]

lemma preEventSales_length (start : Date) (periods : Nat)
    (seasonality : String) (ts nl : ℚ) (noiseDraws : List ℚ)
    (hn : noiseDraws.length = periods) :
    (preEventSales start periods seasonality ts nl noiseDraws).length =
      periods := by
  unfold preEventSales
  simp [linspace_length, seasonalOf_length, dateRange_length, hn]

lemma catSeries_length (trend seasonal : List ℚ) (nl : ℚ) (cd : CatDraw) :
    (catSeries trend seasonal nl cd).length =
      min (min trend.length seasonal.length) cd.noiseDraws.length := by
  unfold catSeries
  simp

lemma getD_replicate_zero (n i : Nat) :
    (List.replicate n (0 : ℚ)).getD i 0 = 0 := by
  by_cases h : i < n
  · rw [List.getD_eq_getElem _ _ (by simpa using h), List.getElem_replicate]
  · rw [List.getD_eq_default _ _ (by simpa using h)]

lemma sumSqDiff_nonneg (l : List (ℚ × ℚ)) :
    0 ≤ (l.map (fun p => (p.1 - p.2) ^ 2)).sum := by
  refine List.sum_nonneg (fun x hx => ?_)
  obtain ⟨p, _, hp⟩ := List.mem_map.mp hx
  rw [← hp]
  exact sq_nonneg _

lemma sumAbsDiff_nonneg (l : List (ℚ × ℚ)) :
    0 ≤ (l.map (fun p => |p.1 - p.2|)).sum := by
  refine List.sum_nonneg (fun x hx => ?_)
  obtain ⟨p, _, hp⟩ := List.mem_map.mp hx
  rw [← hp]
  exact abs_nonneg _

lemma sumSqDiff_eq_zero_iff (xs ys : List ℚ) (h : xs.length = ys.length) :
    ((xs.zip ys).map (fun p => (p.1 - p.2) ^ 2)).sum = 0 ↔ xs = ys := by
  induction xs generalizing ys with
  | nil =>
    cases ys with
    | nil => simp
    | cons b bs => simp at h
  | cons a as ih =>
    cases ys with
    | nil => simp at h
    | cons b bs =>
      simp only [List.zip_cons_cons, List.map_cons, List.sum_cons]
      rw [add_eq_zero_iff_of_nonneg (sq_nonneg _) (sumSqDiff_nonneg _),
        ih bs (by simpa using h), pow_eq_zero_iff (by norm_num), sub_eq_zero]
      constructor
      · rintro ⟨rfl, rfl⟩
        rfl
      · intro he
        injection he with h1 h2
        exact ⟨h1, h2⟩

lemma sumAbsDiff_eq_zero_iff (xs ys : List ℚ) (h : xs.length = ys.length) :
    ((xs.zip ys).map (fun p => |p.1 - p.2|)).sum = 0 ↔ xs = ys := by
  induction xs generalizing ys with
  | nil =>
    cases ys with
    | nil => simp
    | cons b bs => simp at h
  | cons a as ih =>
    cases ys with
    | nil => simp at h
    | cons b bs =>
      simp only [List.zip_cons_cons, List.map_cons, List.sum_cons]
      rw [add_eq_zero_iff_of_nonneg (abs_nonneg _) (sumAbsDiff_nonneg _),
        ih bs (by simpa using h), abs_eq_zero, sub_eq_zero]
      constructor
      · rintro ⟨rfl, rfl⟩
        rfl
      · intro he
        injection he with h1 h2
        exact ⟨h1, h2⟩

lemma daysInMonth_cast_pos (y : Int) (m : Nat) :
    (0 : ℚ) < (daysInMonth y m : ℚ) := by
  have := daysInMonth_ge y m
  exact_mod_cast (by omega : 0 < daysInMonth y m)

lemma monthlyBonus_last {d : Date} (h : d.day = daysInMonth d.year d.month) :
    monthlyBonus d = 30 := by
  unfold monthlyBonus
  rw [h, div_self (ne_of_gt (daysInMonth_cast_pos d.year d.month)), mul_one]

lemma monthlyBonus_day_one (y : Int) (m : Nat) :
    monthlyBonus ⟨y, m, 1⟩ = 30 / (daysInMonth y m : ℚ) := by
  unfold monthlyBonus
  dsimp only
  rw [Nat.cast_one, mul_one_div]

lemma monthlyBonus_day_one_lt (y : Int) (m : Nat) :
    monthlyBonus ⟨y, m, 1⟩ < 30 := by
  rw [monthlyBonus_day_one]
  refine div_lt_self (by norm_num) ?_
  have := daysInMonth_ge y m
  exact_mod_cast (by omega : 1 < daysInMonth y m)

lemma seasonalWeekly_getD (ds : List Date) (i : Nat) (dd : Date)
    (h : i < ds.length) :
    (seasonalWeekly ds).getD i 0 = weeklyBonus (ds.getD i dd).dayOfWeek := by
  have l0 : (List.replicate ds.length (0 : ℚ)).length = ds.length :=
    List.length_replicate _ _
  have l1 : (assignMask ds (List.replicate ds.length (0 : ℚ))
      (fun d => d.dayOfWeek == 5) 30).length = ds.length := by
    rw [assignMask_length, l0, min_self]
  have l2 : (assignMask ds (assignMask ds (List.replicate ds.length (0 : ℚ))
      (fun d => d.dayOfWeek == 5) 30) (fun d => d.dayOfWeek == 6) 40).length =
      ds.length := by
    rw [assignMask_length, l1, min_self]
  unfold seasonalWeekly
  rw [assignMask_getD ds _ _ _ dd h (by rw [l2]; exact h),
    assignMask_getD ds _ _ _ dd h (by rw [l1]; exact h),
    assignMask_getD ds _ _ _ dd h (by rw [l0]; exact h),
    getD_replicate_zero ds.length i]
  unfold weeklyBonus
  split_ifs <;> simp_all

/-! ## Claim theorems -/

/-- Claim C4: when seasonality is weekly, the seasonal component of each day
is a pure function of its day-of-week — Friday (4) gets 20, Saturday (5) gets
30, Sunday (6) gets 40, every other day 0 — even though the source builds it
by three sequential mask assignments over a zero array. -/
theorem C4_weekly_pure_function (ds : List Date) (i : Nat) (dd : Date)
    (h : i < ds.length) :
    (seasonalWeekly ds).getD i 0 = weeklyBonus (ds.getD i dd).dayOfWeek :=
  seasonalWeekly_getD ds i dd h

/-- Witness for C4 at a concrete input: 2023-01-06 is a Friday, and the weekly
seasonal array assigns it 20. -/
theorem C4_weekly_pure_function_witness :
    (seasonalWeekly [⟨2023, 1, 6⟩]).getD 0 0 = 20 := by
  have h := C4_weekly_pure_function [⟨2023, 1, 6⟩] 0 ⟨2023, 1, 6⟩ (by simp)
  rw [h]
  decide

/-- Claim C5, amended: the monthly seasonal bonus is
`30 * (day_of_month / days_in_month)`; it equals exactly 30 on the last day of
every month, equals `30 / days_in_month` — which is positive, NOT 0 — on the
first day of every month, is monotonically non-decreasing within a month, and
drops strictly below the previous value at each month boundary. -/
theorem C5_monthly_bonus_amended :
    (∀ (ds : List Date) (i : Nat) (dd : Date), i < ds.length →
      (seasonalMonthly ds).getD i 0 = monthlyBonus (ds.getD i dd)) ∧
    (∀ d : Date, d.day = daysInMonth d.year d.month → monthlyBonus d = 30) ∧
    (∀ d : Date, d.day = 1 →
      monthlyBonus d = 30 / (daysInMonth d.year d.month : ℚ) ∧
      0 < monthlyBonus d) ∧
    (∀ d e : Date, d.year = e.year → d.month = e.month → d.day ≤ e.day →
      monthlyBonus d ≤ monthlyBonus e) ∧
    (∀ d : Date, d.day = daysInMonth d.year d.month →
      monthlyBonus (nextDay d) < monthlyBonus d) := by
  refine ⟨?_, ?_, ?_, ?_, ?_⟩
  · intro ds i dd h
    unfold seasonalMonthly
    rw [List.getD_eq_getElem _ _ (by simpa using h), List.getElem_map,
      List.getD_eq_getElem _ _ h]
  · intro d h
    exact monthlyBonus_last h
  · intro d h
    have hd : d = ⟨d.year, d.month, 1⟩ := by
      cases d
      simp_all
    rw [hd, monthlyBonus_day_one]
    exact ⟨rfl, div_pos (by norm_num) (daysInMonth_cast_pos d.year d.month)⟩
  · intro d e hy hm hd
    unfold monthlyBonus
    have hdim : daysInMonth e.year e.month = daysInMonth d.year d.month := by
      rw [← hy, ← hm]
    rw [hdim]
    have hc := daysInMonth_cast_pos d.year d.month
    refine mul_le_mul_of_nonneg_left ?_ (by norm_num)
    exact div_le_div_of_nonneg_right (by exact_mod_cast hd) (le_of_lt hc)
  · intro d h
    rw [monthlyBonus_last h]
    unfold nextDay
    rw [if_neg (by omega)]
    split_ifs with hm
    · exact monthlyBonus_day_one_lt d.year (d.month + 1)
    · exact monthlyBonus_day_one_lt (d.year + 1) 1

/-- Witness for C5 at a concrete input: on 2023-01-31 (last day of January)
the monthly bonus is exactly 30, and it strictly drops on the next day. -/
theorem C5_monthly_bonus_amended_witness :
    monthlyBonus ⟨2023, 1, 31⟩ = 30 ∧
    monthlyBonus (nextDay ⟨2023, 1, 31⟩) < monthlyBonus ⟨2023, 1, 31⟩ :=
  ⟨C5_monthly_bonus_amended.2.1 ⟨2023, 1, 31⟩ (by decide),
   C5_monthly_bonus_amended.2.2.2.2 ⟨2023, 1, 31⟩ (by decide)⟩

/-- Counterexample to C5 as stated: on 2023-01-01, the first day of a month
with at least 2 days, the monthly bonus is `30/31`, not 0. -/
theorem C5_monthly_bonus_counterexample :
    2 ≤ daysInMonth 2023 1 ∧ monthlyBonus ⟨2023, 1, 1⟩ ≠ 0 := by
  have h31 : daysInMonth 2023 1 = 31 := by decide
  refine ⟨by omega, ?_⟩
  unfold monthlyBonus
  dsimp only
  rw [h31]
  norm_num

/-- Counterexample to C3 as stated: the source passes `int(periods * 0.05)`
(the floor) to `np.random.choice`, not `round(periods * 0.05)`; at
`period_count = 14` the code selects `numEvents 14 = 0` indices while the
claimed count is `round(0.7) = 1`. -/
theorem C3_event_count_counterexample :
    numEvents 14 = 0 ∧ round ((14 : ℚ) * (5 / 100)) = 1 := by
  constructor
  · rfl
  · norm_num [round_eq]

/-- Claim C3, amended: the generator selects exactly `int(period_count * 0.05)`
(floor, not round) distinct day indices, multiplies each selected day's
post-floor value exactly once by its factor `1.2 + 0.3*u ∈ [1.2, 1.5]`, and
leaves every unselected position at its post-floor value. -/
theorem C3_event_injection_amended (start : Date) (periods : Nat)
    (seasonality : String) (ts nl : ℚ) (noiseDraws : List ℚ)
    (eventStream : List Nat) (uniformDraws : List ℚ)
    (hn : noiseDraws.length = periods)
    (hnd : eventStream.Nodup)
    (hes : ∀ i ∈ eventStream, i < periods)
    (helen : numEvents periods ≤ eventStream.length)
    (hulen : numEvents periods ≤ uniformDraws.length)
    (hu : ∀ u ∈ uniformDraws, 0 ≤ u ∧ u ≤ 1) :
    (eventStream.take (numEvents periods)).length = numEvents periods ∧
    (∀ f ∈ (uniformDraws.take (numEvents periods)).map
        (fun u => 12 / 10 + (15 / 10 - 12 / 10) * u),
      6 / 5 ≤ f ∧ f ≤ 3 / 2) ∧
    (∀ p ∈ (eventStream.take (numEvents periods)).zip
        ((uniformDraws.take (numEvents periods)).map
          (fun u => 12 / 10 + (15 / 10 - 12 / 10) * u)),
      (generate_time_series_data start periods seasonality ts nl noiseDraws
          eventStream uniformDraws).sales.getD p.1 0 =
        (preEventSales start periods seasonality ts nl noiseDraws).getD p.1 0 *
          p.2) ∧
    (∀ i : Nat, i ∉ eventStream.take (numEvents periods) →
      (generate_time_series_data start periods seasonality ts nl noiseDraws
          eventStream uniformDraws).sales.getD i 0 =
        (preEventSales start periods seasonality ts nl noiseDraws).getD i 0) := by
  have hsales : (generate_time_series_data start periods seasonality ts nl
      noiseDraws eventStream uniformDraws).sales =
      applyEvents (preEventSales start periods seasonality ts nl noiseDraws)
        ((eventStream.take (numEvents periods)).zip
          ((uniformDraws.take (numEvents periods)).map
            (fun u => 12 / 10 + (15 / 10 - 12 / 10) * u))) := rfl
  have hevlen : (eventStream.take (numEvents periods)).length =
      numEvents periods := by
    rw [List.length_take]
    omega
  have hfalen : ((uniformDraws.take (numEvents periods)).map
      (fun u => 12 / 10 + (15 / 10 - 12 / 10) * u)).length =
      numEvents periods := by
    rw [List.length_map, List.length_take]
    omega
  have hmapfst : (((eventStream.take (numEvents periods)).zip
      ((uniformDraws.take (numEvents periods)).map
        (fun u => 12 / 10 + (15 / 10 - 12 / 10) * u))).map Prod.fst) =
      eventStream.take (numEvents periods) :=
    List.map_fst_zip _ _ (by rw [hevlen, hfalen])
  have hndtake : (eventStream.take (numEvents periods)).Nodup :=
    List.Nodup.sublist (List.take_sublist _ _) hnd
  refine ⟨hevlen, ?_, ?_, ?_⟩
  · intro f hf
    obtain ⟨u, hu', he⟩ := List.mem_map.mp hf
    have hb := hu u (List.mem_of_mem_take hu')
    rw [← he]
    constructor <;> nlinarith [hb.1, hb.2]
  · intro p hp
    rw [hsales]
    refine applyEvents_getD_mem _ _ ?_ hp ?_
    · rw [hmapfst]
      exact hndtake
    · rw [preEventSales_length start periods seasonality ts nl noiseDraws hn]
      obtain ⟨pi, pf⟩ := p
      exact hes pi (List.mem_of_mem_take (List.of_mem_zip hp).1)
  · intro i hi
    rw [hsales]
    apply applyEvents_getD_not_mem
    rw [hmapfst]
    exact hi

/-- Witness for C3 at a concrete input: with 20 periods the generator takes
one event (index 5), whose post-floor value is multiplied by the factor 3/2
obtained from the raw uniform draw 1. -/
theorem C3_event_injection_amended_witness :
    (generate_time_series_data ⟨2023, 1, 1⟩ 20 "weekly" (1 / 2) 0
        (List.replicate 20 0) [5] [1]).sales.getD 5 0 =
      (preEventSales ⟨2023, 1, 1⟩ 20 "weekly" (1 / 2) 0
        (List.replicate 20 0)).getD 5 0 * (3 / 2) := by
  have h := (C3_event_injection_amended ⟨2023, 1, 1⟩ 20 "weekly" (1 / 2) 0
      (List.replicate 20 0) [5] [1] (by simp) (by simp) (by simp)
      (by decide) (by decide)
      (by intro u hu'; rw [List.mem_singleton] at hu'; subst hu'; norm_num)).2.2.1
      (5, 3 / 2) (by norm_num [numEvents])
  exact h

/-- Claim C1: for a valid start date and positive period count, the generator
returns exactly `period_count` dates and values; the dates begin at
`start_date`, each successive date is the next calendar day (no gaps), they
are strictly ascending (hence unique), and all are valid calendar dates. -/
theorem C1_generate_shape (start : Date) (periods : Nat) (seasonality : String)
    (ts nl : ℚ) (noiseDraws : List ℚ) (eventStream : List Nat)
    (uniformDraws : List ℚ) (hv : start.Valid) (hp : 0 < periods)
    (hn : noiseDraws.length = periods) :
    (generate_time_series_data start periods seasonality ts nl noiseDraws
        eventStream uniformDraws).dates.length = periods ∧
    (generate_time_series_data start periods seasonality ts nl noiseDraws
        eventStream uniformDraws).sales.length = periods ∧
    (generate_time_series_data start periods seasonality ts nl noiseDraws
        eventStream uniformDraws).dates.getD 0 ⟨0, 0, 0⟩ = start ∧
    (∀ i : Nat, i + 1 < periods →
      (generate_time_series_data start periods seasonality ts nl noiseDraws
          eventStream uniformDraws).dates.getD (i + 1) ⟨0, 0, 0⟩ =
        nextDay ((generate_time_series_data start periods seasonality ts nl
          noiseDraws eventStream uniformDraws).dates.getD i ⟨0, 0, 0⟩)) ∧
    (generate_time_series_data start periods seasonality ts nl noiseDraws
        eventStream uniformDraws).dates.Pairwise Date.lt ∧
    (∀ i : Nat, i < periods →
      ((generate_time_series_data start periods seasonality ts nl noiseDraws
          eventStream uniformDraws).dates.getD i ⟨0, 0, 0⟩).Valid) := by
  have hdates : (generate_time_series_data start periods seasonality ts nl
      noiseDraws eventStream uniformDraws).dates = dateRange start periods := rfl
  have hsales : (generate_time_series_data start periods seasonality ts nl
      noiseDraws eventStream uniformDraws).sales =
      applyEvents (preEventSales start periods seasonality ts nl noiseDraws)
        ((eventStream.take (numEvents periods)).zip
          ((uniformDraws.take (numEvents periods)).map
            (fun u => 12 / 10 + (15 / 10 - 12 / 10) * u))) := rfl
  rw [hdates, hsales]
  refine ⟨dateRange_length start periods, ?_, ?_, ?_,
    dateRange_pairwise start periods, ?_⟩
  · rw [applyEvents_length,
      preEventSales_length start periods seasonality ts nl noiseDraws hn]
  · rw [dateRange_getD start hp]
    rfl
  · intro i hi
    exact dateRange_chain start hi _
  · intro i hi
    rw [dateRange_getD start hi]
    exact iterate_nextDay_valid hv i

/-- Witness for C1 at a concrete input: three days from 2023-01-01. -/
theorem C1_generate_shape_witness :
    (generate_time_series_data ⟨2023, 1, 1⟩ 3 "weekly" (1 / 2) (1 / 5)
        [0, 0, 0] [] []).dates.length = 3 ∧
    (generate_time_series_data ⟨2023, 1, 1⟩ 3 "weekly" (1 / 2) (1 / 5)
        [0, 0, 0] [] []).sales.length = 3 ∧
    (generate_time_series_data ⟨2023, 1, 1⟩ 3 "weekly" (1 / 2) (1 / 5)
        [0, 0, 0] [] []).dates.getD 0 ⟨0, 0, 0⟩ = ⟨2023, 1, 1⟩ ∧
    (∀ i : Nat, i + 1 < 3 →
      (generate_time_series_data ⟨2023, 1, 1⟩ 3 "weekly" (1 / 2) (1 / 5)
          [0, 0, 0] [] []).dates.getD (i + 1) ⟨0, 0, 0⟩ =
        nextDay ((generate_time_series_data ⟨2023, 1, 1⟩ 3 "weekly" (1 / 2)
          (1 / 5) [0, 0, 0] [] []).dates.getD i ⟨0, 0, 0⟩)) ∧
    (generate_time_series_data ⟨2023, 1, 1⟩ 3 "weekly" (1 / 2) (1 / 5)
        [0, 0, 0] [] []).dates.Pairwise Date.lt ∧
    (∀ i : Nat, i < 3 →
      ((generate_time_series_data ⟨2023, 1, 1⟩ 3 "weekly" (1 / 2) (1 / 5)
          [0, 0, 0] [] []).dates.getD i ⟨0, 0, 0⟩).Valid) :=
  C1_generate_shape ⟨2023, 1, 1⟩ 3 "weekly" (1 / 2) (1 / 5) [0, 0, 0] [] []
    (by decide) (by decide) rfl

lemma catSeries_nonneg (trend seasonal : List ℚ) (nl : ℚ) (cd : CatDraw) :
    ∀ v ∈ catSeries trend seasonal nl cd, 0 ≤ v := by
  intro v hv
  simp only [catSeries] at hv
  obtain ⟨x, hx, rfl⟩ := List.mem_map.mp hv
  exact rnd2_nonneg (clamp_nonneg _ x hx)

/-- Claim C2: every value of the primary series (in both generators) is ≥ 0 —
values are clamped at zero before event injection, and the event factors are
in [1.2, 1.5], so multiplication preserves non-negativity — and every derived
category column has the same length as the primary series with all values ≥ 0. -/
theorem C2_nonneg_invariant (start : Date) (periods : Nat)
    (seasonality : String) (ts nl : ℚ) (noiseDraws : List ℚ)
    (eventStream : List Nat) (uniformDraws : List ℚ) (catDraws : List CatDraw)
    (hn : noiseDraws.length = periods)
    (hu : ∀ u ∈ uniformDraws, 0 ≤ u ∧ u ≤ 1)
    (hc : ∀ cd ∈ catDraws, cd.noiseDraws.length = periods) :
    (∀ v ∈ (generate_time_series_data start periods seasonality ts nl
        noiseDraws eventStream uniformDraws).sales, 0 ≤ v) ∧
    (∀ v ∈ (generate_sales_data start periods seasonality ts nl noiseDraws
        eventStream uniformDraws catDraws).sales, 0 ≤ v) ∧
    (∀ col ∈ (generate_sales_data start periods seasonality ts nl noiseDraws
        eventStream uniformDraws catDraws).catSales,
      col.length = (generate_sales_data start periods seasonality ts nl
        noiseDraws eventStream uniformDraws catDraws).sales.length ∧
      ∀ v ∈ col, 0 ≤ v) := by
  have hfac : ∀ p ∈ (eventStream.take (numEvents periods)).zip
      ((uniformDraws.take (numEvents periods)).map
        (fun u => 12 / 10 + (15 / 10 - 12 / 10) * u)), 0 ≤ p.2 := by
    intro p hp
    obtain ⟨pi, pf⟩ := p
    obtain ⟨u, hu', he⟩ := List.mem_map.mp (List.of_mem_zip hp).2
    have hb := hu u (List.mem_of_mem_take hu')
    dsimp only
    rw [← he]
    nlinarith [hb.1, hb.2]
  have hpre : ∀ v ∈ preEventSales start periods seasonality ts nl noiseDraws,
      0 ≤ v := clamp_nonneg _
  have h1 : ∀ v ∈ (generate_time_series_data start periods seasonality ts nl
      noiseDraws eventStream uniformDraws).sales, 0 ≤ v := by
    intro v hv
    exact applyEvents_nonneg _ _ hpre hfac v hv
  have hsd : (generate_sales_data start periods seasonality ts nl noiseDraws
      eventStream uniformDraws catDraws).sales =
      ((generate_time_series_data start periods seasonality ts nl noiseDraws
        eventStream uniformDraws).sales).map rnd2 := rfl
  have hsdlen : (generate_sales_data start periods seasonality ts nl noiseDraws
      eventStream uniformDraws catDraws).sales.length = periods := by
    rw [hsd, List.length_map]
    show (applyEvents (preEventSales start periods seasonality ts nl noiseDraws)
      _).length = periods
    rw [applyEvents_length,
      preEventSales_length start periods seasonality ts nl noiseDraws hn]
  have hcols : (generate_sales_data start periods seasonality ts nl noiseDraws
      eventStream uniformDraws catDraws).catSales =
      (categories.zip catDraws).map (fun p =>
        catSeries (linspace 100 (100 + 100 * ts) periods)
          (seasonalOf seasonality (dateRange start periods)) nl p.2) := rfl
  refine ⟨h1, ?_, ?_⟩
  · intro v hv
    rw [hsd] at hv
    obtain ⟨x, hx, rfl⟩ := List.mem_map.mp hv
    exact rnd2_nonneg (h1 x hx)
  · intro col hcol
    rw [hcols] at hcol
    obtain ⟨p, hp, rfl⟩ := List.mem_map.mp hcol
    obtain ⟨pname, pcd⟩ := p
    have hcd := hc pcd (List.of_mem_zip hp).2
    refine ⟨?_, catSeries_nonneg _ _ _ _⟩
    rw [catSeries_length, linspace_length, seasonalOf_length, dateRange_length,
      hcd, hsdlen]
    simp

/-- Witness for C2 at a concrete input: one period, one category. -/
theorem C2_nonneg_invariant_witness :
    (∀ v ∈ (generate_time_series_data ⟨2023, 1, 1⟩ 1 "monthly" 1 1 [0] []
        []).sales, 0 ≤ v) ∧
    (∀ v ∈ (generate_sales_data ⟨2023, 1, 1⟩ 1 "monthly" 1 1 [0] [] []
        [⟨0, 0, [0]⟩]).sales, 0 ≤ v) ∧
    (∀ col ∈ (generate_sales_data ⟨2023, 1, 1⟩ 1 "monthly" 1 1 [0] [] []
        [⟨0, 0, [0]⟩]).catSales,
      col.length = (generate_sales_data ⟨2023, 1, 1⟩ 1 "monthly" 1 1 [0] [] []
        [⟨0, 0, [0]⟩]).sales.length ∧
      ∀ v ∈ col, 0 ≤ v) :=
  C2_nonneg_invariant ⟨2023, 1, 1⟩ 1 "monthly" 1 1 [0] [] [] [⟨0, 0, [0]⟩]
    rfl (by simp)
    (by intro cd hcd; rw [List.mem_singleton] at hcd; subst hcd; rfl)

lemma perform_forecast_ok (df : SalesFrame) (m : FitModel) (steps : Int)
    (last : Date) (hpos : 1 ≤ steps) (hlast : df.dates.getLast? = some last)
    (hlen : steps.toNat ≤ df.sales.length) :
    perform_forecast df m steps = Except.ok
      ⟨dateRange (nextDay last) steps.toNat,
       m.predict df.sales steps.toNat,
       (((df.sales.drop (df.sales.length - steps.toNat)).zip
         (m.predict df.sales steps.toNat)).map (fun p => (p.1 - p.2) ^ 2)).sum /
         (steps.toNat : ℚ),
       (((df.sales.drop (df.sales.length - steps.toNat)).zip
         (m.predict df.sales steps.toNat)).map (fun p => |p.1 - p.2|)).sum /
         (steps.toNat : ℚ)⟩ := by
  unfold perform_forecast
  rw [if_neg (by omega), hlast]
  dsimp only
  rw [if_neg (by omega)]

/-- Claim C6: for a non-empty history and a positive horizon not exceeding the
history length (the regime in which the source call chain succeeds), the
forecast result carries exactly `horizon` forecast dates, starting at the day
immediately after the last historical date and advancing one calendar day per
step, together with a same-length forecast value sequence. -/
theorem C6_forecast_dates (df : SalesFrame) (m : FitModel) (steps : Int)
    (last : Date) (hpos : 1 ≤ steps) (hlast : df.dates.getLast? = some last)
    (hlen : steps.toNat ≤ df.sales.length) :
    ∃ r : ForecastResult,
      perform_forecast df m steps = Except.ok r ∧
      r.forecast_dates.length = steps.toNat ∧
      r.forecast_values.length = steps.toNat ∧
      r.forecast_dates.getD 0 ⟨0, 0, 0⟩ = nextDay last ∧
      (∀ i : Nat, i + 1 < steps.toNat →
        r.forecast_dates.getD (i + 1) ⟨0, 0, 0⟩ =
          nextDay (r.forecast_dates.getD i ⟨0, 0, 0⟩)) := by
  refine ⟨_, perform_forecast_ok df m steps last hpos hlast hlen,
    dateRange_length _ _, m.predict_length _ _, ?_, ?_⟩
  · rw [dateRange_getD _ (by omega : 0 < steps.toNat)]
    rfl
  · intro i hi
    exact dateRange_chain _ hi _

/-- Witness for C6 at a concrete input: one historical day, horizon 1. -/
theorem C6_forecast_dates_witness :
    ∃ r : ForecastResult,
      perform_forecast ⟨[⟨2023, 1, 1⟩], [5]⟩ constModel 1 = Except.ok r ∧
      r.forecast_dates.length = (1 : Int).toNat ∧
      r.forecast_values.length = (1 : Int).toNat ∧
      r.forecast_dates.getD 0 ⟨0, 0, 0⟩ = nextDay ⟨2023, 1, 1⟩ ∧
      (∀ i : Nat, i + 1 < (1 : Int).toNat →
        r.forecast_dates.getD (i + 1) ⟨0, 0, 0⟩ =
          nextDay (r.forecast_dates.getD i ⟨0, 0, 0⟩)) :=
  C6_forecast_dates ⟨[⟨2023, 1, 1⟩], [5]⟩ constModel 1 ⟨2023, 1, 1⟩
    (by norm_num) rfl (by decide)

/-- Claim C7: the error metrics compare the forecast values element-wise with
the last `horizon` values of the historical series; both are always ≥ 0, and
each equals 0 exactly when the forecast values coincide with that tail. -/
theorem C7_error_metrics (df : SalesFrame) (m : FitModel) (steps : Int)
    (last : Date) (hpos : 1 ≤ steps) (hlast : df.dates.getLast? = some last)
    (hlen : steps.toNat ≤ df.sales.length) :
    ∃ r : ForecastResult,
      perform_forecast df m steps = Except.ok r ∧
      r.mse = (((df.sales.drop (df.sales.length - steps.toNat)).zip
        r.forecast_values).map (fun p => (p.1 - p.2) ^ 2)).sum /
        (steps.toNat : ℚ) ∧
      r.mae = (((df.sales.drop (df.sales.length - steps.toNat)).zip
        r.forecast_values).map (fun p => |p.1 - p.2|)).sum /
        (steps.toNat : ℚ) ∧
      0 ≤ r.mse ∧ 0 ≤ r.mae ∧
      (r.mse = 0 ↔ df.sales.drop (df.sales.length - steps.toNat) =
        r.forecast_values) ∧
      (r.mae = 0 ↔ df.sales.drop (df.sales.length - steps.toNat) =
        r.forecast_values) := by
  have hk : (0 : ℚ) < (steps.toNat : ℚ) := by
    exact_mod_cast (by omega : 0 < steps.toNat)
  have hlens : (df.sales.drop (df.sales.length - steps.toNat)).length =
      (m.predict df.sales steps.toNat).length := by
    rw [List.length_drop, m.predict_length]
    omega
  refine ⟨_, perform_forecast_ok df m steps last hpos hlast hlen, rfl, rfl,
    div_nonneg (sumSqDiff_nonneg _) (le_of_lt hk),
    div_nonneg (sumAbsDiff_nonneg _) (le_of_lt hk), ?_, ?_⟩
  · rw [div_eq_zero_iff]
    constructor
    · rintro (h | h)
      · exact (sumSqDiff_eq_zero_iff _ _ hlens).mp h
      · exact absurd h (ne_of_gt hk)
    · intro h
      exact Or.inl ((sumSqDiff_eq_zero_iff _ _ hlens).mpr h)
  · rw [div_eq_zero_iff]
    constructor
    · rintro (h | h)
      · exact (sumAbsDiff_eq_zero_iff _ _ hlens).mp h
      · exact absurd h (ne_of_gt hk)
    · intro h
      exact Or.inl ((sumAbsDiff_eq_zero_iff _ _ hlens).mpr h)

/-- Witness for C7 at a concrete input: the constant-zero model forecasting a
zero history gives zero error metrics. -/
theorem C7_error_metrics_witness :
    ∃ r : ForecastResult,
      perform_forecast ⟨[⟨2023, 1, 2⟩], [0]⟩ constModel 1 = Except.ok r ∧
      r.mse = ((([(0 : ℚ)].drop ([(0 : ℚ)].length - (1 : Int).toNat)).zip
        r.forecast_values).map (fun p => (p.1 - p.2) ^ 2)).sum /
        ((1 : Int).toNat : ℚ) ∧
      r.mae = ((([(0 : ℚ)].drop ([(0 : ℚ)].length - (1 : Int).toNat)).zip
        r.forecast_values).map (fun p => |p.1 - p.2|)).sum /
        ((1 : Int).toNat : ℚ) ∧
      0 ≤ r.mse ∧ 0 ≤ r.mae ∧
      (r.mse = 0 ↔ [(0 : ℚ)].drop ([(0 : ℚ)].length - (1 : Int).toNat) =
        r.forecast_values) ∧
      (r.mae = 0 ↔ [(0 : ℚ)].drop ([(0 : ℚ)].length - (1 : Int).toNat) =
        r.forecast_values) :=
  C7_error_metrics ⟨[⟨2023, 1, 2⟩], [0]⟩ constModel 1 ⟨2023, 1, 2⟩
    (by norm_num) rfl (by decide)

/-- Claim C8: a non-positive horizon makes the forecast fail with the
configuration error raised inside the forecasting step (surfaced as an error
response, never a successful result).  The raise itself happens in statsmodels,
outside src/, and is modelled from the spec. -/
theorem C8_nonpositive_horizon (df : SalesFrame) (m : FitModel) (steps : Int)
    (h : steps ≤ 0) :
    perform_forecast df m steps = Except.error
      (ForecastError.invalidConfiguration
        "Prediction must have end after start.") ∧
    ∀ r : ForecastResult, perform_forecast df m steps ≠ Except.ok r := by
  have he : perform_forecast df m steps = Except.error
      (ForecastError.invalidConfiguration
        "Prediction must have end after start.") := by
    unfold perform_forecast
    rw [if_pos h]
  refine ⟨he, fun r hr => ?_⟩
  rw [he] at hr
  exact Except.noConfusion hr

/-- Witness for C8 at a concrete input: horizon 0 on a one-day history. -/
theorem C8_nonpositive_horizon_witness :
    perform_forecast ⟨[⟨2023, 1, 1⟩], [5]⟩ constModel 0 = Except.error
      (ForecastError.invalidConfiguration
        "Prediction must have end after start.") ∧
    ∀ r : ForecastResult,
      perform_forecast ⟨[⟨2023, 1, 1⟩], [5]⟩ constModel 0 ≠ Except.ok r :=
  C8_nonpositive_horizon ⟨[⟨2023, 1, 1⟩], [5]⟩ constModel 0 (le_refl 0)

lemma linspace_getD (a b : ℚ) {n i : Nat} (hi : i < n) (hn : n ≠ 1) :
    (linspace a b n).getD i 0 = a + (b - a) * (i : ℚ) / ((n : ℚ) - 1) := by
  unfold linspace
  rw [if_neg hn, List.getD_eq_getElem?_getD, List.getElem?_map,
    List.getElem?_range hi]
  rfl

lemma preEventSales_getD (start : Date) (periods : Nat) (seasonality : String)
    (ts nl : ℚ) (noiseDraws : List ℚ) {i : Nat} (hi : i < periods)
    (hn : noiseDraws.length = periods) :
    (preEventSales start periods seasonality ts nl noiseDraws).getD i 0 =
      max ((linspace 100 (100 + 100 * ts) periods).getD i 0 +
        (seasonalOf seasonality (dateRange start periods)).getD i 0 +
        nl * 100 * noiseDraws.getD i 0) 0 := by
  have h1 : i < (linspace 100 (100 + 100 * ts) periods).length := by
    rw [linspace_length]
    exact hi
  have h2 : i < (seasonalOf seasonality (dateRange start periods)).length := by
    rw [seasonalOf_length, dateRange_length]
    exact hi
  have h3 : i < (noiseDraws.map (fun z => nl * 100 * z)).length := by
    rw [List.length_map, hn]
    exact hi
  have h4 : i < (List.zipWith (· + ·) (linspace 100 (100 + 100 * ts) periods)
      (seasonalOf seasonality (dateRange start periods))).length := by
    rw [List.length_zipWith]
    omega
  have h5 : i < (List.zipWith (· + ·)
      (List.zipWith (· + ·) (linspace 100 (100 + 100 * ts) periods)
        (seasonalOf seasonality (dateRange start periods)))
      (noiseDraws.map (fun z => nl * 100 * z))).length := by
    rw [List.length_zipWith]
    omega
  unfold preEventSales
  rw [List.getD_eq_getElem _ _ (by rwa [List.length_map]),
    List.getElem_map, List.getElem_zipWith, List.getElem_zipWith,
    List.getElem_map]
  rw [List.getD_eq_getElem _ 0 h1, List.getD_eq_getElem _ 0 h2,
    List.getD_eq_getElem _ 0 (by omega : i < noiseDraws.length)]

/-- Claim C9: in the end-to-end scenario (start 2023-01-01, 14 periods, weekly
seasonality, trend_strength 0.5, noise_level 0) day 6 is a Saturday and day 7
a Sunday (0-indexed), their pre-noise values exceed the weekday trend baseline
by exactly 30 and 40, and event injection touches at most 1 of the 14 days —
the code in fact selects `int(14*0.05) = 0` of them. -/
theorem C9_end_to_end :
    (generate_time_series_data ⟨2023, 1, 1⟩ 14 "weekly" (1 / 2) 0
        (List.replicate 14 9) [3] [1 / 2]).sales.getD 6 0 =
      (linspace 100 (100 + 100 * (1 / 2)) 14).getD 6 0 + 30 ∧
    (generate_time_series_data ⟨2023, 1, 1⟩ 14 "weekly" (1 / 2) 0
        (List.replicate 14 9) [3] [1 / 2]).sales.getD 7 0 =
      (linspace 100 (100 + 100 * (1 / 2)) 14).getD 7 0 + 40 ∧
    ((dateRange ⟨2023, 1, 1⟩ 14).getD 6 ⟨0, 0, 0⟩).dayOfWeek = 5 ∧
    ((dateRange ⟨2023, 1, 1⟩ 14).getD 7 ⟨0, 0, 0⟩).dayOfWeek = 6 ∧
    numEvents 14 = 0 ∧ numEvents 14 ≤ 1 := by
  have hsales : (generate_time_series_data ⟨2023, 1, 1⟩ 14 "weekly" (1 / 2) 0
      (List.replicate 14 9) [3] [1 / 2]).sales =
      preEventSales ⟨2023, 1, 1⟩ 14 "weekly" (1 / 2) 0
        (List.replicate 14 9) := rfl
  have hlen14 : (dateRange ⟨2023, 1, 1⟩ 14).length = 14 := dateRange_length _ _
  have hseas : seasonalOf "weekly" (dateRange ⟨2023, 1, 1⟩ 14) =
      seasonalWeekly (dateRange ⟨2023, 1, 1⟩ 14) := rfl
  have h6 : (seasonalOf "weekly" (dateRange ⟨2023, 1, 1⟩ 14)).getD 6 0 = 30 := by
    rw [hseas, seasonalWeekly_getD _ 6 ⟨0, 0, 0⟩ (by rw [hlen14]; omega)]
    have hd : ((dateRange ⟨2023, 1, 1⟩ 14).getD 6 ⟨0, 0, 0⟩).dayOfWeek = 5 := by
      decide
    rw [hd]
    rfl
  have h7 : (seasonalOf "weekly" (dateRange ⟨2023, 1, 1⟩ 14)).getD 7 0 = 40 := by
    rw [hseas, seasonalWeekly_getD _ 7 ⟨0, 0, 0⟩ (by rw [hlen14]; omega)]
    have hd : ((dateRange ⟨2023, 1, 1⟩ 14).getD 7 ⟨0, 0, 0⟩).dayOfWeek = 6 := by
      decide
    rw [hd]
    rfl
  refine ⟨?_, ?_, by decide, by decide, rfl, by decide⟩
  · rw [hsales, preEventSales_getD ⟨2023, 1, 1⟩ 14 "weekly" (1 / 2) 0
      (List.replicate 14 9) (by omega) rfl, h6,
      linspace_getD 100 (100 + 100 * (1 / 2)) (by omega : (6 : Nat) < 14)
        (by omega)]
    rw [max_eq_left (by norm_num)]
    norm_num
  · rw [hsales, preEventSales_getD ⟨2023, 1, 1⟩ 14 "weekly" (1 / 2) 0
      (List.replicate 14 9) (by omega) rfl, h7,
      linspace_getD 100 (100 + 100 * (1 / 2)) (by omega : (7 : Nat) < 14)
        (by omega)]
    rw [max_eq_left (by norm_num)]
    norm_num

/-- Claim C10: with the same inputs and the same stream of random draws, the
two generators agree on the dates and on the primary series up to the final
two-decimal rounding that only dataset_generator.py applies; the latter merely
appends one column per category (four when four category draws are supplied). -/
theorem C10_primary_refinement (start : Date) (periods : Nat)
    (seasonality : String) (ts nl : ℚ) (noiseDraws : List ℚ)
    (eventStream : List Nat) (uniformDraws : List ℚ)
    (catDraws : List CatDraw) :
    (generate_sales_data start periods seasonality ts nl noiseDraws eventStream
        uniformDraws catDraws).dates =
      (generate_time_series_data start periods seasonality ts nl noiseDraws
        eventStream uniformDraws).dates ∧
    (generate_sales_data start periods seasonality ts nl noiseDraws eventStream
        uniformDraws catDraws).sales =
      ((generate_time_series_data start periods seasonality ts nl noiseDraws
        eventStream uniformDraws).sales).map rnd2 ∧
    (generate_sales_data start periods seasonality ts nl noiseDraws eventStream
        uniformDraws catDraws).catSales.length =
      min categories.length catDraws.length := by
  refine ⟨rfl, rfl, ?_⟩
  show ((categories.zip catDraws).map _).length = _
  rw [List.length_map, List.length_zip]
